import Mathlib

/-!
# Verification of the Foodgram serialization layer (`backend/api/serializers.py`)

This file gives a shallow embedding, in Lean 4, of the representation-mapper
layer of the Foodgram recipe application and proves or refutes the frozen
claims about it.  Persisted state (users, ingredients, tags, recipes,
recipe-ingredient join rows, relation edges) is modelled as explicit lists
inside a `DB` structure; each serializer method becomes a pure function over
that state; external collaborators (the password hasher, the password strength
policy, the image-format sniffer) are either explicit function parameters or
definitions modelled from the specification, as marked.
-/

deriving instance DecidableEq for Except

namespace Foodgram

/-! ## Data model -/

/-- A persisted user record.  `password` is the stored password column, which
holds whatever string was last saved there (a plain text or a hash). -/
structure Userr where
  id : Nat
  email : String
  username : String
  first_name : String
  last_name : String
  password : String
  deriving DecidableEq, Repr

/-- A reference ingredient (`Ingredients` model): id, name, measurement unit. -/
structure Ingredient where
  id : Nat
  name : String
  measurement_unit : String
  deriving DecidableEq, Repr

/-- A tag (`Tags` model): id, name, color, slug. -/
structure Tag where
  id : Nat
  name : String
  color : String
  slug : String
  deriving DecidableEq, Repr

/-- A recipe-ingredient join row (`RecipesIngridients` model): which
ingredient, which recipe, and the amount. -/
structure RecipeLine where
  ingredient_id : Nat
  recipe_id : Nat
  amount : Int
  deriving DecidableEq, Repr

/-- A persisted recipe (`Recipes` model).  `tag_ids` models the many-to-many
`tags` relation as the list of assigned tag ids. -/
structure Recipe where
  id : Nat
  name : String
  image : String
  text : String
  cooking_time : Int
  author_id : Nat
  tag_ids : List Nat
  deriving DecidableEq, Repr

/-- The persisted state all mappers read and write.  `following`, `favorites`
and `shoppingcarts` are the relation edge sets ((user, author) respectively
(user, recipe) pairs).  `nextRecipeId` models the primary-key sequence used
when a fresh recipe row is inserted. -/
structure DB where
  users : List Userr
  ingredients : List Ingredient
  tags : List Tag
  recipes : List Recipe
  recipeLines : List RecipeLine
  following : List (Nat × Nat)
  favorites : List (Nat × Nat)
  shoppingcarts : List (Nat × Nat)
  nextRecipeId : Nat
  deriving DecidableEq, Repr

/-! ## Field-range validators

`RecipesSerializer.validate_cooking_time` and
`IngredientsSerializer.validate_amount` from the source. -/

/-- Embeds `RecipesSerializer.validate_cooking_time`: raise a (bare) `ValidationError`
when `time <= 0`, otherwise return `time`. -/
def validate_cooking_time (time : Int) : Except Unit Int :=
  if time ≤ 0 then .error () else .ok time

/-- Embeds `IngredientsSerializer.validate_amount`: raise a `ValidationError` with the
localized detail message when `amount <= 0`, otherwise return `amount`. -/
def validate_amount (amount : Int) : Except String Int :=
  if amount ≤ 0 then .error "Убедитесь, что данное значение больше 0"
  else .ok amount

/-! ## Image handling (`RecipesSerializer.to_internal_value`) -/

/-- The inbound `image` field of a recipe payload: the key may be absent,
present with a null value, or present with a string value. -/
inductive ImgField where
  | absent
  | nullv
  | str (s : String)
  deriving DecidableEq, Repr

/-- Python truthiness of `data.get('image')`: `None` (key absent or null
value) and the empty string are falsy; every other string is truthy. -/
def imgTruthy : ImgField → Bool
  | .absent => false
  | .nullv => false
  | .str s => !(s == "")

/-- Split a character list on a separator, Python-`str.split` style: empty
segments are kept, and the result always has at least one (possibly empty)
segment. -/
def splitOnChar (sep : Char) : List Char → List (List Char)
  | [] => [[]]
  | c :: rest =>
      let r := splitOnChar sep rest
      if c = sep then [] :: r
      else
        match r with
        | [] => [[c]]
        | g :: gs => (c :: g) :: gs

/-- Embeds `data['image'].split(',')[-1]`: the final comma-separated segment, i.e.
everything after the last comma (the whole string when no comma occurs). -/
def lastCommaSegment (s : String) : String :=
  String.mk ((splitOnChar ',' s.data).getLastD [])

/-- The value of one character of the standard base64 alphabet. -/
def b64CharVal (c : Char) : Option Nat :=
  if 'A' ≤ c ∧ c ≤ 'Z' then some (c.toNat - 'A'.toNat)
  else if 'a' ≤ c ∧ c ≤ 'z' then some (c.toNat - 'a'.toNat + 26)
  else if '0' ≤ c ∧ c ≤ '9' then some (c.toNat - '0'.toNat + 52)
  else if c = '+' then some 62
  else if c = '/' then some 63
  else none

/-- Decode a list of 6-bit base64 values into bytes, four values (three
bytes) at a time; a trailing group of two or three values (the result of
stripping `=` padding) contributes one or two bytes. -/
def b64Bytes : List Nat → List Nat
  | [] => []
  | [_] => []
  | [a, b] => [(a * 4 + b / 16) % 256]
  | [a, b, c] => [(a * 4 + b / 16) % 256, ((b % 16) * 16 + c / 4) % 256]
  | a :: b :: c :: d :: rest =>
      ((a * 4 + b / 16) % 256) :: (((b % 16) * 16 + c / 4) % 256)
        :: (((c % 4) * 64 + d) % 256) :: b64Bytes rest

/-- Embeds `base64.b64decode`: characters outside the base64 alphabet and the `=`
padding are discarded, the remaining length must be a multiple of four with
at most two `=` at the very end, and the 6-bit values are packed into bytes.
Returns `none` where the Python call raises `binascii.Error`. -/
def b64decode (s : String) : Option (List Nat) :=
  let cs := s.data.filter (fun c => (b64CharVal c).isSome ∨ c = '=')
  let body := cs.takeWhile (fun c => c ≠ '=')
  let pad := cs.length - body.length
  if cs.length % 4 = 0 ∧ pad ≤ 2 ∧ (cs.drop body.length).all (fun c => c = '=') then
    some (b64Bytes (body.filterMap b64CharVal))
  else
    none

/-- The eight-byte PNG file signature. -/
def pngMagic : List Nat := [137, 80, 78, 71, 13, 10, 26, 10]

/-- Modelled from the spec: the image-decoding collaborator
(`PIL.Image.open` on the decoded bytes followed by reading `.format`) lives
outside this repository; per the spec it sniffs the image container format
from the decoded bytes and is "used only to determine a file extension".
PNG streams start with the eight-byte PNG signature and sniff as `"PNG"`;
JPEG streams start with FF D8 FF and sniff as `"JPEG"`; anything else is
unidentified (`none`, where PIL raises). -/
def sniffFormat (bytes : List Nat) : Option String :=
  if bytes.take 8 = pngMagic then some "PNG"
  else if bytes.take 3 = [255, 216, 255] then some "JPEG"
  else none

/-- The outcome of `to_internal_value` for the image field: either the
payload is handed to the standard binding unchanged (`standard`), or the
image value has been replaced by a synthesized file (`file content name`)
before standard binding proceeds. -/
inductive BoundImage where
  | standard (img : ImgField)
  | file (content : List Nat) (name : String)
  deriving DecidableEq, Repr

/-- Embeds `RecipesSerializer.to_internal_value`, image part: when
`data.get('image')` is falsy, fall through to the standard binding with the
payload untouched; otherwise split off everything up to and including the
last comma, base64-decode the remainder, sniff the format, and replace the
image value with a file named `<fresh uuid>.<format>` holding the decoded
bytes.  `fresh` stands for `str(uuid.uuid4())`.  Decode and sniff failures
surface as uncaught exceptions (`Except.error`). -/
def to_internal_value (fresh : String) (img : ImgField) : Except String BoundImage :=
  if imgTruthy img = false then .ok (.standard img)
  else
    match img with
    | .str s =>
        match b64decode (lastCommaSegment s) with
        | none => .error "binascii.Error"
        | some bytes =>
            match sniffFormat bytes with
            | none => .error "PIL.UnidentifiedImageError"
            | some fmt => .ok (.file bytes (fresh ++ "." ++ fmt))
    | _ => .ok (.standard img)

/-! ## User signup (`UserSerializer`) -/

/-- The validated signup input: email, username, first name, last name and the
plain-text password. -/
structure SignupInput where
  email : String
  username : String
  first_name : String
  last_name : String
  password : String
  deriving DecidableEq, Repr

/-- Embeds `UserSerializer.validate_email`: reject with a localized message when a
persisted user with this email already exists. -/
def validate_email (users : List Userr) (email : String) : Except String String :=
  if users.any (fun u => u.email == email) then
    .error "Пользователь с такой почтой уже существует."
  else .ok email

/-- Embeds `UserSerializer.validate_username`: reject with a localized message when a
persisted user with this username already exists. -/
def validate_username (users : List Userr) (username : String) : Except String String :=
  if users.any (fun u => u.username == username) then
    .error "Такой пользователь уже существует."
  else .ok username

/-- The declared field bounds of `UserSerializer` (`max_length` on each
declared field), checked by the framework during field binding. -/
def signupFieldErrors (inp : SignupInput) : List String :=
  (if inp.email.length > 254 then ["email: max_length"] else [])
    ++ (if inp.username.length > 150 then ["username: max_length"] else [])
    ++ (if inp.first_name.length > 150 then ["first_name: max_length"] else [])
    ++ (if inp.last_name.length > 150 then ["last_name: max_length"] else [])
    ++ (if inp.password.length > 150 then ["password: max_length"] else [])

/-- All validation errors the serializer collects for a signup payload: the
declared field bounds plus `validate_email` and `validate_username`. -/
def signupErrors (users : List Userr) (inp : SignupInput) : List String :=
  signupFieldErrors inp
    ++ (match validate_email users inp.email with
        | .error e => [e]
        | .ok _ => [])
    ++ (match validate_username users inp.username with
        | .error e => [e]
        | .ok _ => [])

/-- Embeds `UserSerializer.create`, as the sequence of persisted user-table states it
produces: the initial table, the table after `super().create(validated_data)`
(which inserts the record with the password field holding the plain-text
password as validated), and the table after `user.set_password(...)` followed
by `user.save()` (which replaces the password field with `hash` of the plain
text).  `hash` stands for the external password hasher behind
`set_password`. -/
def userCreateTrace (hash : String → String) (users : List Userr) (nextId : Nat)
    (inp : SignupInput) : List (List Userr) :=
  let u0 : Userr :=
    { id := nextId, email := inp.email, username := inp.username,
      first_name := inp.first_name, last_name := inp.last_name,
      password := inp.password }
  let users1 := users ++ [u0]
  let users2 := users ++ [{ u0 with password := hash inp.password }]
  [users, users1, users2]

/-- The whole signup flow: run the serializer's validation; when any check
fails, reject with the collected errors and leave the user table untouched;
otherwise run `UserSerializer.create` and return the final user table together
with the created record. -/
def userSignup (hash : String → String) (users : List Userr) (nextId : Nat)
    (inp : SignupInput) : Except (List String) (List Userr × Userr) :=
  let errs := signupErrors users inp
  if errs ≠ [] then .error errs
  else
    let trace := userCreateTrace hash users nextId inp
    let final := trace.getLastD users
    let u : Userr :=
      { id := nextId, email := inp.email, username := inp.username,
        first_name := inp.first_name, last_name := inp.last_name,
        password := hash inp.password }
    .ok (final, u)

/-- The user table after a signup attempt: the new table on success, the
original table unchanged when validation rejected the request. -/
def usersAfterSignup (hash : String → String) (users : List Userr) (nextId : Nat)
    (inp : SignupInput) : List Userr :=
  match userSignup hash users nextId inp with
  | .ok (users', _) => users'
  | .error _ => users

/-! ## Subscription flag (`UserSubsribedSerializer.get_is_subscribed`) -/

/-- Embeds `UserSubsribedSerializer.get_is_subscribed`: `currentUser` is the
request's user (`none` for an anonymous request); `following` is the edge set
of the "following" relation as (follower, author) pairs; `authorId` is the id
of the represented author.  True exactly when the request user is
authenticated and `obj.following.filter(user=user.id)` is non-empty. -/
def get_is_subscribed (following : List (Nat × Nat)) (currentUser : Option Nat)
    (authorId : Nat) : Bool :=
  match currentUser with
  | none => false
  | some uid =>
      !(following.filter (fun e => e.1 == uid && e.2 == authorId)).isEmpty

/-! ## Password change (`SetPasswordSerializer`) -/

/-- The distinguishable validation failures of a password-change request. -/
inductive PwErr where
  | weakNew
  | wrongCurrent
  | samePassword
  deriving DecidableEq, Repr

/-- Embeds `SetPasswordSerializer`: `strengthOk` stands for the external
`validate_password(password, user)` strength policy (given the acting user);
`checkPassword` stands for `user.check_password(plain)` against the user's
stored hash.  The framework first runs the two field-level validators
(`validate_new_password`, `validate_current_password`) and collects their
failures; only when both pass does the object-level `validate` run, rejecting
when the new password equals the current one. -/
def setPasswordValidate (strengthOk : String → Userr → Bool)
    (checkPassword : String → Userr → Bool) (user : Userr)
    (new_password current_password : String) : Except (List PwErr) (String × String) :=
  let fieldErrs :=
    (if strengthOk new_password user then [] else [PwErr.weakNew])
      ++ (if checkPassword current_password user then [] else [PwErr.wrongCurrent])
  if fieldErrs ≠ [] then .error fieldErrs
  else if current_password == new_password then .error [PwErr.samePassword]
  else .ok (new_password, current_password)

/-! ## Recipe create and update (`RecipesSerializer.create` / `.update`) -/

/-- A validated recipe creation payload.  Each `ingredients` entry is the id
of the referenced ingredient (already resolved by the nested serializer's
primary-key field) together with the validated amount; `tags` is the list of
assigned tag ids; `author_id` comes from the current-user default. -/
structure RecipePayload where
  name : String
  image : String
  text : String
  cooking_time : Int
  author_id : Nat
  tags : List Nat
  ingredients : List (Nat × Int)
  deriving DecidableEq, Repr

/-- The ingredient-line insertion loop shared by create and update: for each
entry, `Ingredients.objects.filter(id=...).first()` resolves the referenced
ingredient and one `RecipesIngridients` row is inserted with that ingredient,
the given recipe and the entry's amount, in input order.  `none` when some
referenced id has no persisted ingredient (the insertion would fail). -/
def insertLines (ingredients : List Ingredient) (rid : Nat)
    (entries : List (Nat × Int)) : Option (List RecipeLine) :=
  entries.mapM (fun entry =>
    (ingredients.find? (fun ing => ing.id == entry.1)).map
      (fun ing =>
        { ingredient_id := ing.id, recipe_id := rid, amount := entry.2 }))

/-- Embeds `RecipesSerializer.create`: pop `ingredients` and `tags` out of the
validated data, insert the base recipe row with the remaining fields (a fresh
primary key), attach the tag set via `recipe.tags.set(tags)`, then insert one
ingredient line per entry in input order.  Returns the new state and the
created recipe. -/
def recipesCreate (db : DB) (p : RecipePayload) : Option (DB × Recipe) :=
  let rid := db.nextRecipeId
  let recipe : Recipe :=
    { id := rid, name := p.name, image := p.image, text := p.text,
      cooking_time := p.cooking_time, author_id := p.author_id,
      tag_ids := p.tags }
  match insertLines db.ingredients rid p.ingredients with
  | none => none
  | some newLines =>
      some ({ db with
                recipes := db.recipes ++ [recipe],
                recipeLines := db.recipeLines ++ newLines,
                nextRecipeId := rid + 1 },
            recipe)

/-- A validated recipe update payload: every key may be absent.  A present
`tags`/`ingredients` key may hold an empty list. -/
structure RecipeUpdatePayload where
  tags : Option (List Nat)
  ingredients : Option (List (Nat × Int))
  name : Option String
  image : Option String
  text : Option String
  cooking_time : Option Int
  deriving DecidableEq, Repr

/-- Python truthiness of `validated_data.get(key)` for a list-valued key:
an absent key gives `None` (falsy) and a present empty list is falsy too. -/
def listTruthy {α : Type} (o : Option (List α)) : Bool :=
  match o with
  | none => false
  | some l => !l.isEmpty

/-- Embeds `RecipesSerializer.update`: replace the tag set only when
`validated_data.get('tags')` is truthy (a present non-empty list); when
`validated_data.get('ingredients')` is truthy, delete every existing
`RecipesIngridients` row of this recipe and insert fresh lines exactly as in
create; finally apply the remaining fields by direct assignment and save
once.  The `Recipes` model itself is not part of this excerpt; per the spec
the remaining directly-assigned fields are the scalar fields, and an empty or
absent `tags`/`ingredients` list leaves the corresponding association
untouched (modelled from the spec for the non-popped empty-list keys). -/
def recipesUpdate (db : DB) (rid : Nat) (vd : RecipeUpdatePayload) : Option DB :=
  match db.recipes.find? (fun r => r.id == rid) with
  | none => none
  | some r =>
      let r1 := if listTruthy vd.tags then { r with tag_ids := vd.tags.getD [] } else r
      let linesStep : Option (List RecipeLine) :=
        if listTruthy vd.ingredients then
          (insertLines db.ingredients rid (vd.ingredients.getD [])).map
            (fun fresh => db.recipeLines.filter (fun l => ¬ l.recipe_id = rid) ++ fresh)
        else some db.recipeLines
      match linesStep with
      | none => none
      | some lines1 =>
          let r2 :=
            { r1 with
                name := vd.name.getD r1.name,
                image := vd.image.getD r1.image,
                text := vd.text.getD r1.text,
                cooking_time := vd.cooking_time.getD r1.cooking_time }
          some { db with
                   recipes := db.recipes.map (fun x => if x.id == rid then r2 else x),
                   recipeLines := lines1 }

/-! ## Recipe representation (`RecipesSerializer.to_representation`) -/

/-- Embeds `RecipesSerializer.get_is_favorited`: true iff the request user is
authenticated and `user.favorite.filter(user=user.id, recipe=obj.id)` is
non-empty, over the (user, recipe) favorite edges. -/
def get_is_favorited (favorites : List (Nat × Nat)) (currentUser : Option Nat)
    (recipeId : Nat) : Bool :=
  match currentUser with
  | none => false
  | some uid =>
      !(favorites.filter (fun e => e.1 == uid && e.2 == recipeId)).isEmpty

/-- Embeds `RecipesSerializer.get_is_in_shopping_cart`: true iff the request user is
authenticated and `user.shoppingcarts.filter(user=user.id, recipe=obj.id)` is
non-empty, over the (user, recipe) shopping-cart edges. -/
def get_is_in_shopping_cart (carts : List (Nat × Nat)) (currentUser : Option Nat)
    (recipeId : Nat) : Bool :=
  match currentUser with
  | none => false
  | some uid =>
      !(carts.filter (fun e => e.1 == uid && e.2 == recipeId)).isEmpty

/-- Join character-list segments with a separator character
(Python `sep.join`). -/
def joinWithChar (sep : Char) : List (List Char) → List Char
  | [] => []
  | [g] => g
  | g :: gs => g ++ sep :: joinWithChar sep gs

/-- Embeds `'/' + '/'.join(rep["image"].split('/')[-4:])` as the path rewrite
of the outbound image field. -/
def imagePublicPath (s : String) : String :=
  let parts := splitOnChar '/' s.data
  String.mk ('/' :: joinWithChar '/' (parts.drop (parts.length - 4)))

/-- One outbound ingredient entry (`IngredientsRecipeSerializer`): the line's
`ingredient_id`, its amount, and name/measurement unit read from the
referenced ingredient. -/
structure LineRep where
  id : Nat
  amount : Int
  name : String
  measurement_unit : String
  deriving DecidableEq, Repr

/-- Embeds `IngredientsRecipeSerializer` applied to one join row: `id` is sourced
from `ingredient_id`, `name` and `measurement_unit` from the referenced
ingredient record. -/
def representLine (ingredients : List Ingredient) (l : RecipeLine) : Option LineRep :=
  (ingredients.find? (fun ing => ing.id == l.ingredient_id)).map
    (fun ing =>
      { id := l.ingredient_id, amount := l.amount, name := ing.name,
        measurement_unit := ing.measurement_unit })

/-- The outbound recipe representation after `to_representation`'s
rewrites. -/
structure RecipeRep where
  id : Nat
  tags : List Tag
  author_id : Nat
  is_favorited : Bool
  is_in_shopping_cart : Bool
  name : String
  image : String
  text : String
  cooking_time : Int
  ingredients : List LineRep
  deriving DecidableEq, Repr

/-- Embeds `RecipesSerializer.to_representation`: the standard field projection with
the image path shortened to its last four segments, the `tags` field replaced
by the full tag projection of `instance.tags.all()`, and the `ingredients`
field replaced by the `IngredientsRecipeSerializer` projection of the
recipe's own `recipes_ingredients` rows (not the inbound list).  `none` when
a referenced tag or ingredient row is missing (the lookups would fail). -/
def to_representation (db : DB) (currentUser : Option Nat) (r : Recipe) :
    Option RecipeRep := do
  let tags ← r.tag_ids.mapM (fun tid => db.tags.find? (fun t => t.id == tid))
  let own := db.recipeLines.filter (fun l => l.recipe_id == r.id)
  let ingredients ← own.mapM (representLine db.ingredients)
  pure { id := r.id, tags := tags, author_id := r.author_id,
         is_favorited := get_is_favorited db.favorites currentUser r.id,
         is_in_shopping_cart := get_is_in_shopping_cart db.shoppingcarts currentUser r.id,
         name := r.name, image := imagePublicPath r.image, text := r.text,
         cooking_time := r.cooking_time, ingredients := ingredients }

/-! ## Embedded recipe list of a user (`UserFullSerializer.get_recipes`) -/

/-- The `RecipesSmallSerializer` projection: id, name, image, cooking time. -/
structure RecipeSmall where
  id : Nat
  name : String
  image : String
  cooking_time : Int
  deriving DecidableEq, Repr

/-- Embeds `RecipesSmallSerializer` applied to one recipe. -/
def recipeSmallOf (r : Recipe) : RecipeSmall :=
  { id := r.id, name := r.name, image := r.image, cooking_time := r.cooking_time }

/-- Python truthiness of `query_params.get('recipes_limit')`: `None` (absent)
and the empty string are falsy. -/
def strTruthy (o : Option String) : Bool :=
  match o with
  | none => false
  | some s => !(s == "")

/-- Strip leading and trailing whitespace from a character list. -/
def pyTrim (cs : List Char) : List Char :=
  ((cs.dropWhile Char.isWhitespace).reverse.dropWhile Char.isWhitespace).reverse

/-- Read a list of decimal digits as a natural number. -/
def digitsVal (cs : List Char) : Nat :=
  cs.foldl (fun n c => n * 10 + (c.toNat - '0'.toNat)) 0

/-- Python `int(str)`: surrounding whitespace is stripped, an optional sign
precedes one or more decimal digits; anything else raises `ValueError`
(`none`). -/
def pyInt? (s : String) : Option Int :=
  match pyTrim s.data with
  | [] => none
  | c :: rest =>
      let neg := c = '-'
      let core := if c = '-' ∨ c = '+' then rest else c :: rest
      if core ≠ [] ∧ core.all Char.isDigit then
        some (if neg then -(digitsVal core : Int) else (digitsVal core : Int))
      else none

/-- Embeds `query_params.get(key)` over the request's query parameters. -/
def query_params_get (params : List (String × String)) (key : String) : Option String :=
  (params.find? (fun p => p.1 == key)).map Prod.snd

/-- The recipes of one author (`Recipes.objects.filter(author=user)`, which is
also what the `user.recipe` related manager yields). -/
def authorRecipes (db : DB) (uid : Nat) : List Recipe :=
  db.recipes.filter (fun r => r.author_id == uid)

/-- Embeds `UserFullSerializer.get_recipes`: read `recipes_limit` from the query
parameters; when it is truthy, slice the author's recipes to the first
`int(limit)` — `int` raising `ValueError` on a non-integer string, and the
query-set slice rejecting a negative bound — otherwise take the author's full
recipe list; project either through `RecipesSmallSerializer`. -/
def get_recipes (db : DB) (params : List (String × String)) (uid : Nat) :
    Except String (List RecipeSmall) :=
  let limit := query_params_get params "recipes_limit"
  if strTruthy limit then
    match pyInt? (limit.getD "") with
    | none => .error "ValueError: invalid literal for int"
    | some n =>
        if n < 0 then .error "Negative indexing is not supported."
        else .ok (((authorRecipes db uid).take n.toNat).map recipeSmallOf)
  else .ok ((authorRecipes db uid).map recipeSmallOf)

/-! ## Helper lemmas -/

theorem mapM_option_cons_eq {α β : Type} {f : α → Option β} {a : α} {t : List α}
    {out : List β} (h : (a :: t).mapM f = some out) :
    ∃ b bs, f a = some b ∧ t.mapM f = some bs ∧ out = b :: bs := by
  rw [List.mapM_cons] at h
  cases hfa : f a with
  | none => rw [hfa] at h; simp at h
  | some b =>
      rw [hfa] at h
      cases hmt : t.mapM f with
      | none => rw [hmt] at h; simp at h
      | some bs =>
          rw [hmt] at h
          simp at h
          exact ⟨b, bs, rfl, rfl, h.symm⟩

theorem mapM_option_length {α β : Type} {f : α → Option β} :
    ∀ {l : List α} {out : List β}, l.mapM f = some out → out.length = l.length := by
  intro l
  induction l with
  | nil =>
      intro out h
      simp only [List.mapM_nil, Option.pure_def, Option.some.injEq] at h
      simp [← h]
  | cons a t ih =>
      intro out h
      obtain ⟨b, bs, _, hmt, hout⟩ := mapM_option_cons_eq h
      subst hout
      simp [ih hmt]

theorem mapM_option_map {α β γ : Type} {f : α → Option β} (g : β → γ) (gg : α → γ) :
    ∀ {l : List α} {out : List β}, l.mapM f = some out →
      (∀ a ∈ l, ∀ b, f a = some b → g b = gg a) → out.map g = l.map gg := by
  intro l
  induction l with
  | nil =>
      intro out h _
      simp only [List.mapM_nil, Option.pure_def, Option.some.injEq] at h
      simp [← h]
  | cons a t ih =>
      intro out h hg
      obtain ⟨b, bs, hfa, hmt, hout⟩ := mapM_option_cons_eq h
      subst hout
      simp only [List.map_cons]
      rw [hg a (by simp) b hfa, ih hmt (fun x hx c hc => hg x (by simp [hx]) c hc)]

theorem mapM_option_mem {α β : Type} {f : α → Option β} :
    ∀ {l : List α} {out : List β}, l.mapM f = some out →
      ∀ b ∈ out, ∃ a ∈ l, f a = some b := by
  intro l
  induction l with
  | nil =>
      intro out h
      simp only [List.mapM_nil, Option.pure_def, Option.some.injEq] at h
      simp [← h]
  | cons a t ih =>
      intro out h b hb
      obtain ⟨b0, bs, hfa, hmt, hout⟩ := mapM_option_cons_eq h
      subst hout
      rw [List.mem_cons] at hb
      rcases hb with hb | hb
      · exact ⟨a, by simp, by rw [hb]; exact hfa⟩
      · obtain ⟨x, hx, hfx⟩ := ih hmt b hb
        exact ⟨x, by simp [hx], hfx⟩

theorem mapM_option_arg_some {α β : Type} {f : α → Option β} :
    ∀ {l : List α} {out : List β}, l.mapM f = some out →
      ∀ a ∈ l, ∃ b, f a = some b := by
  intro l
  induction l with
  | nil => intro out _ a ha; simp at ha
  | cons x t ih =>
      intro out h a ha
      obtain ⟨b0, bs, hfx, hmt, _⟩ := mapM_option_cons_eq h
      rw [List.mem_cons] at ha
      rcases ha with ha | ha
      · exact ⟨b0, ha ▸ hfx⟩
      · exact ih hmt a ha

theorem mapM_option_of_forall_some {α β : Type} {f : α → Option β} :
    ∀ {l : List α}, (∀ a ∈ l, ∃ b, f a = some b) → ∃ out, l.mapM f = some out := by
  intro l
  induction l with
  | nil => intro _; exact ⟨[], rfl⟩
  | cons a t ih =>
      intro h
      obtain ⟨b, hb⟩ := h a (by simp)
      obtain ⟨bs, hbs⟩ := ih (fun x hx => h x (by simp [hx]))
      exact ⟨b :: bs, by rw [List.mapM_cons, hb, hbs]; rfl⟩

/-- Whenever the ingredient-line insertion loop succeeds, the inserted rows
are exactly the input entries, in input order, each pointing at the given
recipe with the entry's ingredient id and amount. -/
theorem insertLines_spec {ings : List Ingredient} {rid : Nat}
    {entries : List (Nat × Int)} {lines : List RecipeLine}
    (h : insertLines ings rid entries = some lines) :
    lines = entries.map
      (fun e => { ingredient_id := e.1, recipe_id := rid, amount := e.2 }) := by
  unfold insertLines at h
  have hmap := mapM_option_map (id : RecipeLine → RecipeLine)
    (fun (e : Nat × Int) =>
      ({ ingredient_id := e.1, recipe_id := rid, amount := e.2 } : RecipeLine)) h ?_
  · simpa using hmap
  · intro a _ b hb
    cases hfind : ings.find? (fun ing => ing.id == a.1) with
    | none => rw [hfind] at hb; simp at hb
    | some ing =>
        rw [hfind] at hb
        have hid : ing.id = a.1 := by
          have := List.find?_some hfind
          simpa using this
        simp at hb
        simp [← hb, hid]

/-- Replacing, in a list, every element satisfying the search predicate by a
fixed element that itself satisfies the predicate makes `find?` return that
element whenever it previously found one. -/
theorem find?_map_replace {α : Type} {p : α → Bool} {r2 : α} (h2 : p r2 = true) :
    ∀ {l : List α} {r : α}, l.find? p = some r →
      (l.map (fun x => if p x then r2 else x)).find? p = some r2 := by
  intro l
  induction l with
  | nil => intro r h; simp at h
  | cons a t ih =>
      intro r h
      by_cases ha : p a = true
      · rw [List.map_cons, if_pos ha]
        exact List.find?_cons_of_pos _ h2
      · rw [List.find?_cons_of_neg _ ha] at h
        rw [List.map_cons, if_neg ha, List.find?_cons_of_neg _ ha]
        exact ih h

/-! ## Claim theorems -/

/-- C8: for every recipe submission, `validate_cooking_time` rejects
`cooking_time ≤ 0` with a validation error and accepts the boundary value 1;
for every ingredient entry, `validate_amount` rejects `amount ≤ 0` with a
validation error and accepts the boundary value 1. -/
theorem claimC8_field_range_boundaries (t a : Int) (ht : t ≤ 0) (ha : a ≤ 0) :
    validate_cooking_time t = Except.error () ∧
    (∃ msg, validate_amount a = Except.error msg) ∧
    validate_cooking_time 1 = Except.ok 1 ∧
    validate_amount 1 = Except.ok 1 := by
  refine ⟨?_, ⟨"Убедитесь, что данное значение больше 0", ?_⟩, ?_, ?_⟩
  · simp [validate_cooking_time, ht]
  · simp [validate_amount, ha]
  · norm_num [validate_cooking_time]
  · norm_num [validate_amount]

/-- Witness for C8 at `cooking_time = 0`, `amount = -3`. -/
theorem claimC8_field_range_boundaries_witness :
    validate_cooking_time 0 = Except.error () ∧
    (∃ msg, validate_amount (-3) = Except.error msg) ∧
    validate_cooking_time 1 = Except.ok 1 ∧
    validate_amount 1 = Except.ok 1 :=
  claimC8_field_range_boundaries 0 (-3) (by norm_num) (by norm_num)

/-- C10: an inbound recipe payload whose image field is present but empty
(empty string or null) skips the image-decoding path entirely and goes to
standard field binding with the payload untouched, exactly as when the field
is absent; the skip condition is falsiness of the value (`not
data.get('image')`), not absence of the key, and every non-empty string is
truthy. -/
theorem claimC10_falsy_image_skips_decode (fresh : String) (img : ImgField)
    (h : imgTruthy img = false) :
    to_internal_value fresh img = Except.ok (BoundImage.standard img) ∧
    imgTruthy ImgField.nullv = false ∧
    imgTruthy (ImgField.str "") = false ∧
    imgTruthy ImgField.absent = false ∧
    (∀ s : String, s ≠ "" → imgTruthy (ImgField.str s) = true) := by
  refine ⟨?_, rfl, by decide, rfl, ?_⟩
  · simp [to_internal_value, h]
  · intro s hs
    simp [imgTruthy, hs]

/-- Witness for C10 at a present-but-empty image value. -/
theorem claimC10_falsy_image_skips_decode_witness :
    to_internal_value "u" (ImgField.str "") =
      Except.ok (BoundImage.standard (ImgField.str "")) :=
  (claimC10_falsy_image_skips_decode "u" (ImgField.str "") (by decide)).1

/-- C9: a present non-empty image string is transformed by discarding
everything up to and including the last comma, base64-decoding the remainder
and sniffing the container format from the decoded bytes; the value is
replaced by a file holding the decoded bytes whose name is the freshly
generated identifier plus an extension derived from the sniffed format, and
bytes beginning with the PNG signature yield the PNG extension. -/
theorem claimC9_image_decode (fresh s : String) (bytes : List Nat) (fmt : String)
    (hs : s ≠ "") (hDec : b64decode (lastCommaSegment s) = some bytes)
    (hFmt : sniffFormat bytes = some fmt) :
    to_internal_value fresh (ImgField.str s) =
      Except.ok (BoundImage.file bytes (fresh ++ "." ++ fmt)) ∧
    (bytes.take 8 = pngMagic → fmt = "PNG") := by
  constructor
  · simp [to_internal_value, imgTruthy, hs, hDec, hFmt]
  · intro hpng
    rw [sniffFormat, if_pos hpng] at hFmt
    exact (Option.some.injEq _ _ ▸ hFmt).symm

/-- Witness for C9: a base64-encoded PNG signature payload with a data-URI
prefix decodes to the PNG bytes and is stored under a `.PNG` extension. -/
theorem claimC9_image_decode_witness :
    to_internal_value "u" (ImgField.str "data:image/png;base64,iVBORw0KGgo=") =
      Except.ok (BoundImage.file pngMagic "u.PNG") :=
  (claimC9_image_decode "u" "data:image/png;base64,iVBORw0KGgo=" pngMagic "PNG"
    (by decide) (by decide) (by decide)).1

/-- C5: the `is_subscribed` projection is true exactly when the requesting
user is authenticated and a following-edge from the requesting user to the
represented author is persisted, and an anonymous request always yields
false, whatever the relation contains. -/
theorem claimC5_subscription_flag (following : List (Nat × Nat))
    (cu : Option Nat) (authorId : Nat) :
    (get_is_subscribed following cu authorId = true ↔
      ∃ u, cu = some u ∧ (u, authorId) ∈ following) ∧
    get_is_subscribed following none authorId = false := by
  refine ⟨?_, rfl⟩
  cases cu with
  | none => simp [get_is_subscribed]
  | some u =>
      constructor
      · intro h
        rw [get_is_subscribed, Bool.not_eq_true', List.isEmpty_eq_false] at h
        obtain ⟨e, he⟩ := List.exists_mem_of_ne_nil _ h
        rw [List.mem_filter] at he
        obtain ⟨hmem, hp⟩ := he
        simp only [Bool.and_eq_true, beq_iff_eq] at hp
        refine ⟨u, rfl, ?_⟩
        have he2 : e = (u, authorId) := by
          cases e
          simp only [Prod.mk.injEq]
          exact hp
        rwa [he2] at hmem
      · rintro ⟨v, hv, hmem⟩
        have hv' : u = v := by injection hv
        subst hv'
        rw [get_is_subscribed, Bool.not_eq_true', List.isEmpty_eq_false]
        exact List.ne_nil_of_mem (List.mem_filter.mpr ⟨hmem, by simp⟩)

/-- C6: a password-change request is rejected exactly when one of the three
checks fails (new-password strength, current-password correctness, new must
differ from current); the cross-field equality failure is only ever reported
after both field-level checks pass, and a request passing all three checks is
accepted. -/
theorem claimC6_password_change (strengthOk : String → Userr → Bool)
    (checkPassword : String → Userr → Bool) (user : Userr)
    (newP curP : String) :
    ((setPasswordValidate strengthOk checkPassword user newP curP).isOk = true ↔
      (strengthOk newP user = true ∧ checkPassword curP user = true ∧
        curP ≠ newP)) ∧
    (∀ l, setPasswordValidate strengthOk checkPassword user newP curP =
        Except.error l → PwErr.samePassword ∈ l →
      strengthOk newP user = true ∧ checkPassword curP user = true) ∧
    (strengthOk newP user = true → checkPassword curP user = true →
      curP = newP →
      setPasswordValidate strengthOk checkPassword user newP curP =
        Except.error [PwErr.samePassword]) := by
  have hval : setPasswordValidate strengthOk checkPassword user newP curP =
      (if strengthOk newP user then
        (if checkPassword curP user then
          (if curP == newP then Except.error [PwErr.samePassword]
           else Except.ok (newP, curP))
         else Except.error [PwErr.wrongCurrent])
       else
        (if checkPassword curP user then Except.error [PwErr.weakNew]
         else Except.error [PwErr.weakNew, PwErr.wrongCurrent])) := by
    rw [setPasswordValidate]
    by_cases h1 : strengthOk newP user <;> by_cases h2 : checkPassword curP user <;>
      simp [h1, h2]
  by_cases h1 : strengthOk newP user = true
  · by_cases h2 : checkPassword curP user = true
    · by_cases h3 : curP = newP
      · subst h3
        simp [h1, h2] at hval
        refine ⟨?_, ?_, ?_⟩
        · rw [hval]; simp [h1, h2, Except.isOk, Except.toBool]
        · intro l _ _; exact ⟨h1, h2⟩
        · intro _ _ _; exact hval
      · have hb : (curP == newP) = false := beq_eq_false_iff_ne.mpr h3
        simp [h1, h2, hb] at hval
        refine ⟨?_, ?_, ?_⟩
        · rw [hval]; simp [h1, h2, h3, Except.isOk, Except.toBool]
        · intro l hl _
          rw [hval] at hl
          exact absurd hl (by simp)
        · intro _ _ hc; exact absurd hc h3
    · simp [h1, h2] at hval
      refine ⟨?_, ?_, ?_⟩
      · rw [hval]; simp [h2, Except.isOk, Except.toBool]
      · intro l hl hmem
        rw [hval] at hl
        injection hl with hlist
        rw [← hlist] at hmem
        simp at hmem
      · intro _ hb _; exact absurd hb h2
  · simp [h1] at hval
    by_cases h2 : checkPassword curP user = true <;> simp [h2] at hval <;>
      refine ⟨?_, ?_, ?_⟩
    · rw [hval]; simp [h1, Except.isOk, Except.toBool]
    · intro l hl hmem
      rw [hval] at hl
      injection hl with hlist
      rw [← hlist] at hmem
      simp at hmem
    · intro ha _ _; exact absurd ha h1
    · rw [hval]; simp [h1, Except.isOk, Except.toBool]
    · intro l hl hmem
      rw [hval] at hl
      injection hl with hlist
      rw [← hlist] at hmem
      simp at hmem
    · intro ha _ _; exact absurd ha h1

/-- Witness for C6: a strength policy demanding at least eight characters, a
stored-password check, and a request passing all three checks is accepted. -/
theorem claimC6_password_change_witness :
    (setPasswordValidate (fun p _ => decide (p.length ≥ 8))
      (fun p u => p == u.password)
      { id := 1, email := "e", username := "n", first_name := "f",
        last_name := "l", password := "oldpass" }
      "newpassword" "oldpass").isOk = true :=
  (claimC6_password_change (fun p _ => decide (p.length ≥ 8))
    (fun p u => p == u.password)
    { id := 1, email := "e", username := "n", first_name := "f",
      last_name := "l", password := "oldpass" }
    "newpassword" "oldpass").1.mpr ⟨by decide, by decide, by decide⟩

/-- Witness for C5: a persisted following-edge (1, 2) makes the flag true for
the authenticated user 1 and the anonymous request yields false. -/
theorem claimC5_subscription_flag_witness :
    get_is_subscribed [(1, 2)] (some 1) 2 = true ∧
    get_is_subscribed [(1, 2)] none 2 = false :=
  ⟨(claimC5_subscription_flag [(1, 2)] (some 1) 2).1.mpr ⟨1, rfl, by simp⟩,
   (claimC5_subscription_flag [(1, 2)] none 2).2⟩

/-- C1 counterexample: at a concrete signup input with password "secret", the
intermediate state of the creation sequence (after `super().create`, before
`set_password` and the final `save`) stores a user record whose password
field holds the plain-text password — so it is not the case that at no point
of the sequence a plain-text password is persisted. -/
theorem claimC1_counterexample :
    ∃ st ∈ userCreateTrace (fun p => "hashed$" ++ p) [] 1
        { email := "a@b.c", username := "alice", first_name := "A",
          last_name := "B", password := "secret" },
      ∃ u ∈ st, u.password = "secret" := by decide

/-- C1 (amended): the creation sequence ends with only a hash persisted —
the final user table stores the created record with `hash` applied to the
password, and (when the hash differs from the plain text and no prior record
held it) no record of the final table holds the plain-text password — but
the intermediate create step does persist the plain text. -/
theorem claimC1_hash_persisted_finally (hash : String → String)
    (users : List Userr) (nextId : Nat) (inp : SignupInput)
    (hHash : hash inp.password ≠ inp.password)
    (hPrior : ∀ u ∈ users, u.password ≠ inp.password) :
    ((userCreateTrace hash users nextId inp).getLastD users =
      users ++ [{ id := nextId, email := inp.email, username := inp.username,
                  first_name := inp.first_name, last_name := inp.last_name,
                  password := hash inp.password }]) ∧
    (∀ u ∈ (userCreateTrace hash users nextId inp).getLastD users,
      u.password ≠ inp.password) ∧
    (∃ st ∈ userCreateTrace hash users nextId inp, ∃ u ∈ st,
      u.password = inp.password) := by
  have hlast : (userCreateTrace hash users nextId inp).getLastD users =
      users ++ [{ id := nextId, email := inp.email, username := inp.username, first_name := inp.first_name, last_name := inp.last_name, password := hash inp.password }] := rfl
  refine ⟨hlast, ?_, ?_⟩
  · intro u hu
    rw [hlast, List.mem_append] at hu
    rcases hu with hu | hu
    · exact hPrior u hu
    · rw [List.mem_singleton] at hu
      subst hu
      exact hHash
  · refine ⟨users ++ [{ id := nextId, email := inp.email, username := inp.username, first_name := inp.first_name, last_name := inp.last_name, password := inp.password }], ?_, ?_⟩
    · rw [userCreateTrace]
      exact List.mem_cons_of_mem _ (List.mem_cons_self _ _)
    · exact ⟨_, List.mem_append_right _ (List.mem_singleton_self _), rfl⟩

/-- Witness for C1 (amended) at the concrete signup input with password
"secret" and a hasher that prepends a marker. -/
theorem claimC1_hash_persisted_finally_witness :
    (userCreateTrace (fun p => "hashed$" ++ p) [] 1
        { email := "a@b.c", username := "alice", first_name := "A",
          last_name := "B", password := "secret" }).getLastD [] =
      [{ id := 1, email := "a@b.c", username := "alice", first_name := "A",
         last_name := "B", password := "hashed$secret" }] :=
  (claimC1_hash_persisted_finally (fun p => "hashed$" ++ p) [] 1
    { email := "a@b.c", username := "alice", first_name := "A",
      last_name := "B", password := "secret" } (by decide) (by simp)).1

/-- C7: a signup attempt whose email or username already exists among the
persisted users is rejected with a uniqueness validation error carrying one
of the localized duplicate messages, and no write happens: the persisted
user table is unchanged. -/
theorem claimC7_signup_uniqueness (hash : String → String) (users : List Userr)
    (nextId : Nat) (inp : SignupInput)
    (hDup : (∃ u ∈ users, u.email = inp.email) ∨
            (∃ u ∈ users, u.username = inp.username)) :
    (∃ errs, userSignup hash users nextId inp = Except.error errs ∧
      ("Пользователь с такой почтой уже существует." ∈ errs ∨
       "Такой пользователь уже существует." ∈ errs)) ∧
    usersAfterSignup hash users nextId inp = users := by
  have hne : ("Пользователь с такой почтой уже существует." ∈
        signupErrors users inp) ∨
      ("Такой пользователь уже существует." ∈ signupErrors users inp) := by
    rcases hDup with ⟨u, hu, he⟩ | ⟨u, hu, hn⟩
    · left
      have hany : users.any (fun v => v.email == inp.email) = true :=
        List.any_eq_true.mpr ⟨u, hu, by simp [he]⟩
      rw [signupErrors, validate_email, if_pos hany]
      simp
    · right
      have hany : users.any (fun v => v.username == inp.username) = true :=
        List.any_eq_true.mpr ⟨u, hu, by simp [hn]⟩
      rw [signupErrors, validate_username, if_pos hany]
      cases validate_email users inp.email <;> simp
  have herrs : signupErrors users inp ≠ [] := by
    rcases hne with h | h <;> exact List.ne_nil_of_mem h
  have hsig : userSignup hash users nextId inp =
      Except.error (signupErrors users inp) := by
    rw [userSignup]
    simp [herrs]
  refine ⟨⟨signupErrors users inp, hsig, hne⟩, ?_⟩
  rw [usersAfterSignup, hsig]

/-- Witness for C7: signing up with the already-persisted email rejects and
leaves the single-user table unchanged. -/
theorem claimC7_signup_uniqueness_witness :
    usersAfterSignup (fun p => "hashed$" ++ p)
      [{ id := 1, email := "a@b.c", username := "alice", first_name := "A",
         last_name := "B", password := "h" }] 2
      { email := "a@b.c", username := "bob", first_name := "C",
        last_name := "D", password := "pw" } =
      [{ id := 1, email := "a@b.c", username := "alice", first_name := "A",
         last_name := "B", password := "h" }] :=
  (claimC7_signup_uniqueness (fun p => "hashed$" ++ p)
    [{ id := 1, email := "a@b.c", username := "alice", first_name := "A",
       last_name := "B", password := "h" }] 2
    { email := "a@b.c", username := "bob", first_name := "C",
      last_name := "D", password := "pw" } (by decide)).2

/-- A one-recipe state used to exercise the `recipes_limit` handling: author
7 has a single persisted recipe. -/
def dbC3 : DB :=
  { users := [], ingredients := [], tags := [],
    recipes := [{ id := 1, name := "soup", image := "img", text := "t",
                  cooking_time := 5, author_id := 7, tag_ids := [] }],
    recipeLines := [], following := [], favorites := [], shoppingcarts := [],
    nextRecipeId := 2 }

/-- C3 counterexample: with one persisted recipe of author 7 and the query
parameter `recipes_limit=abc` — present but not parseable as an integer — the
embedded `get_recipes` raises a `ValueError` instead of returning the full
(non-empty) unlimited recipe list, refuting "absent or invalid parameter
means no limit". -/
theorem claimC3_counterexample :
    get_recipes dbC3 [("recipes_limit", "abc")] 7 =
      Except.error "ValueError: invalid literal for int" ∧
    (authorRecipes dbC3 7).map recipeSmallOf =
      [{ id := 1, name := "soup", image := "img", cooking_time := 5 }] := by
  constructor
  · decide
  · decide

/-- C3 (amended): the recipes field of the full user projection is the
author's recipes projected through the small recipe serializer, truncated to
the first N when `recipes_limit` is present, non-empty and parses as a
non-negative integer N; an absent or empty parameter yields the full
unlimited list; a present, non-empty parameter that does not parse as an
integer raises an error instead of returning any list. -/
theorem claimC3_recipes_limit (db : DB) (params : List (String × String))
    (uid : Nat) :
    (query_params_get params "recipes_limit" = none →
      get_recipes db params uid =
        Except.ok ((authorRecipes db uid).map recipeSmallOf)) ∧
    (query_params_get params "recipes_limit" = some "" →
      get_recipes db params uid =
        Except.ok ((authorRecipes db uid).map recipeSmallOf)) ∧
    (∀ s n, query_params_get params "recipes_limit" = some s → s ≠ "" →
      pyInt? s = some n → 0 ≤ n →
      get_recipes db params uid =
        Except.ok (((authorRecipes db uid).take n.toNat).map recipeSmallOf)) ∧
    (∀ s, query_params_get params "recipes_limit" = some s → s ≠ "" →
      pyInt? s = none →
      ∃ msg, get_recipes db params uid = Except.error msg) := by
  refine ⟨?_, ?_, ?_, ?_⟩
  · intro h
    rw [get_recipes, h]
    simp [strTruthy]
  · intro h
    rw [get_recipes, h]
    simp [strTruthy]
  · intro s n h hs hn hnn
    have hnlt : ¬ n < 0 := not_lt.mpr hnn
    rw [get_recipes, h]
    simp [strTruthy, hs, hn, hnlt]
  · intro s h hs hn
    rw [get_recipes, h]
    simp [strTruthy, hs, hn]

/-- Witness for C3 (amended): a parseable limit of 1 truncates the single
recipe list of author 7 to its first entry. -/
theorem claimC3_recipes_limit_witness :
    get_recipes dbC3 [("recipes_limit", "1")] 7 =
      Except.ok (((authorRecipes dbC3 7).take 1).map recipeSmallOf) :=
  (claimC3_recipes_limit dbC3 [("recipes_limit", "1")] 7).2.2.1 "1" 1
    (by decide) (by decide) (by decide) (by decide)

/-- C2: on update, a present non-empty ingredients list wholesale-replaces
the recipe's ingredient lines — every prior line of the recipe is deleted
and the fresh lines are exactly the new entries in input order, as in create,
so no old ingredient id absent from the new list survives into a subsequent
read — while an empty or absent ingredients list leaves the line set
untouched and an empty or absent tags list leaves the recipe's tag set
untouched. -/
theorem claimC2_update_replace_or_preserve (db : DB) (rid : Nat)
    (vd : RecipeUpdatePayload) (db' : DB) (l : List (Nat × Int))
    (hUpd : recipesUpdate db rid vd = some db') :
    (vd.ingredients = some l → l ≠ [] →
      db'.recipeLines.filter (fun x => x.recipe_id == rid) =
        l.map (fun e =>
          { ingredient_id := e.1, recipe_id := rid, amount := e.2 }) ∧
      (∀ x ∈ db'.recipeLines, x.recipe_id = rid →
        x.ingredient_id ∈ l.map Prod.fst)) ∧
    ((vd.ingredients = none ∨ vd.ingredients = some ([] : List (Nat × Int))) →
      db'.recipeLines = db.recipeLines) ∧
    ((vd.tags = none ∨ vd.tags = some ([] : List Nat)) →
      ∀ r, db.recipes.find? (fun x => x.id == rid) = some r →
      ∃ r', db'.recipes.find? (fun x => x.id == rid) = some r' ∧
        r'.tag_ids = r.tag_ids) := by
  simp only [recipesUpdate] at hUpd
  cases hfind : db.recipes.find? (fun x => x.id == rid) with
  | none =>
      rw [hfind] at hUpd
      simp at hUpd
  | some r =>
      rw [hfind] at hUpd
      by_cases hing : listTruthy vd.ingredients = true
      · cases hins : insertLines db.ingredients rid (vd.ingredients.getD []) with
        | none =>
            rw [hins] at hUpd
            simp [hing] at hUpd
        | some fresh =>
            rw [hins] at hUpd
            simp only [hing, if_true, Option.map_some', Option.some.injEq] at hUpd
            subst hUpd
            refine ⟨?_, ?_, ?_⟩
            · intro hl hlne
              rw [hl] at hins
              simp only [Option.getD_some] at hins
              have hfresh := insertLines_spec hins
              have h1 : (db.recipeLines.filter
                    (fun x => ¬ x.recipe_id = rid)).filter
                    (fun x => x.recipe_id == rid) = [] := by
                rw [List.filter_eq_nil_iff]
                intro a ha
                rw [List.mem_filter] at ha
                have hane : a.recipe_id ≠ rid := of_decide_eq_true ha.2
                simp [hane]
              have h2 : fresh.filter (fun x => x.recipe_id == rid) = fresh := by
                rw [List.filter_eq_self]
                intro a ha
                rw [hfresh] at ha
                obtain ⟨e, _, rfl⟩ := List.mem_map.mp ha
                simp
              constructor
              · show ((db.recipeLines.filter (fun x => ¬ x.recipe_id = rid))
                    ++ fresh).filter (fun x => x.recipe_id == rid) = _
                rw [List.filter_append, h1, h2, hfresh]
                rfl
              · intro x hx hxid
                rw [List.mem_append] at hx
                rcases hx with hx | hx
                · rw [List.mem_filter] at hx
                  exact absurd hxid (of_decide_eq_true hx.2)
                · rw [hfresh] at hx
                  obtain ⟨e, he, rfl⟩ := List.mem_map.mp hx
                  exact List.mem_map.mpr ⟨e, he, rfl⟩
            · intro h
              exfalso
              rcases h with h | h <;> rw [h] at hing <;> simp [listTruthy] at hing
            · intro htag r0 hr0
              injection hr0 with hr0e
              subst hr0e
              have ht : listTruthy vd.tags = false := by
                rcases htag with h | h <;> rw [h] <;> simp [listTruthy]
              simp only [ht, Bool.false_eq_true, if_false]
              refine ⟨_, find?_map_replace ?_ hfind, ?_⟩
              · have hp := List.find?_some hfind
                exact hp
              · rfl
      · simp only [hing, Bool.false_eq_true, if_false, Option.some.injEq] at hUpd
        subst hUpd
        refine ⟨?_, ?_, ?_⟩
        · intro hl hlne
          exfalso
          apply hing
          rw [hl]
          rcases l with _ | ⟨a, t⟩
          · exact absurd rfl hlne
          · simp [listTruthy]
        · intro _
          rfl
        · intro htag r0 hr0
          injection hr0 with hr0e
          subst hr0e
          have ht : listTruthy vd.tags = false := by
            rcases htag with h | h <;> rw [h] <;> simp [listTruthy]
          simp only [ht, Bool.false_eq_true, if_false]
          refine ⟨_, find?_map_replace ?_ hfind, ?_⟩
          · have hp := List.find?_some hfind
            exact hp
          · rfl

/-- A small persisted state used to exercise recipe update: two reference
ingredients, one tag, one recipe of author 7 with one existing line. -/
def dbC2 : DB :=
  { users := [],
    ingredients := [{ id := 10, name := "salt", measurement_unit := "g" },
                    { id := 20, name := "rice", measurement_unit := "g" }],
    tags := [{ id := 5, name := "fast", color := "red", slug := "fast" }],
    recipes := [{ id := 1, name := "soup", image := "img", text := "t",
                  cooking_time := 5, author_id := 7, tag_ids := [5] }],
    recipeLines := [{ ingredient_id := 10, recipe_id := 1, amount := 3 }],
    following := [], favorites := [], shoppingcarts := [], nextRecipeId := 2 }

/-- An update payload replacing the ingredients with a single rice line and
leaving tags absent. -/
def vdC2 : RecipeUpdatePayload :=
  { tags := none, ingredients := some [(20, 2)], name := none, image := none,
    text := none, cooking_time := none }

/-- The state after applying `vdC2` to recipe 1 of `dbC2`. -/
def dbC2p : DB :=
  { dbC2 with recipeLines := [{ ingredient_id := 20, recipe_id := 1, amount := 2 }] }

/-- Witness for C2: the non-empty one-entry ingredients payload leaves the
recipe with exactly that line after the update. -/
theorem claimC2_update_replace_or_preserve_witness :
    dbC2p.recipeLines.filter (fun x => x.recipe_id == 1) =
      ([(20, 2)] : List (Nat × Int)).map (fun e =>
        { ingredient_id := e.1, recipe_id := 1, amount := e.2 }) :=
  ((claimC2_update_replace_or_preserve dbC2 1 vdC2 dbC2p [(20, 2)]
    (by decide)).1 (by decide) (by decide)).1

/-- C4: creating a recipe with N ingredient entries and M tags and reading it
back yields an ingredients list of exactly N entries whose id and amount are
the created entries in order and whose name and measurement unit come from
the persisted ingredient records, and a tags list of exactly M entries that
are precisely the persisted tag records of the assigned ids in order — the
outbound ingredients being drawn from the recipe's own persisted line rows. -/
theorem claimC4_round_trip (db : DB) (p : RecipePayload) (db' : DB)
    (recipe : Recipe) (cu : Option Nat)
    (hCreate : recipesCreate db p = some (db', recipe))
    (hFresh : ∀ x ∈ db.recipeLines, x.recipe_id ≠ db.nextRecipeId)
    (hTags : ∀ tid ∈ p.tags, ∃ t ∈ db.tags, t.id = tid) :
    ∃ rep, to_representation db' cu recipe = some rep ∧
      rep.ingredients.length = p.ingredients.length ∧
      rep.ingredients.map (fun x => (x.id, x.amount)) = p.ingredients ∧
      (∀ x ∈ rep.ingredients, ∃ ing ∈ db.ingredients, ing.id = x.id ∧
        x.name = ing.name ∧ x.measurement_unit = ing.measurement_unit) ∧
      rep.tags.length = p.tags.length ∧
      rep.tags.map Tag.id = p.tags ∧
      (∀ t ∈ rep.tags, t ∈ db.tags) := by
  simp only [recipesCreate] at hCreate
  cases hins : insertLines db.ingredients db.nextRecipeId p.ingredients with
  | none =>
      rw [hins] at hCreate
      simp at hCreate
  | some fresh =>
      rw [hins] at hCreate
      simp only [Option.some.injEq, Prod.mk.injEq] at hCreate
      obtain ⟨hdb, hrec⟩ := hCreate
      subst hdb
      subst hrec
      have htagsome : ∀ tid ∈ p.tags,
          ∃ t, db.tags.find? (fun x => x.id == tid) = some t := by
        intro tid htid
        obtain ⟨t, ht, hteq⟩ := hTags tid htid
        have hiss : (db.tags.find? (fun x => x.id == tid)).isSome := by
          rw [List.find?_isSome]
          exact ⟨t, ht, by simp [hteq]⟩
        exact Option.isSome_iff_exists.mp hiss
      obtain ⟨tagsOut, htagsOut⟩ := mapM_option_of_forall_some htagsome
      have hfreshmap := insertLines_spec hins
      have hfilter : (db.recipeLines ++ fresh).filter
          (fun x => x.recipe_id == db.nextRecipeId) = fresh := by
        rw [List.filter_append]
        have h1 : db.recipeLines.filter
            (fun x => x.recipe_id == db.nextRecipeId) = [] := by
          rw [List.filter_eq_nil_iff]
          intro a ha
          simp [hFresh a ha]
        have h2 : fresh.filter
            (fun x => x.recipe_id == db.nextRecipeId) = fresh := by
          rw [List.filter_eq_self]
          intro a ha
          rw [hfreshmap] at ha
          obtain ⟨e, _, rfl⟩ := List.mem_map.mp ha
          simp
        rw [h1, h2]
        rfl
      have hlinesome : ∀ x ∈ fresh,
          ∃ b, representLine db.ingredients x = some b := by
        intro x hx
        rw [hfreshmap] at hx
        obtain ⟨e, he, rfl⟩ := List.mem_map.mp hx
        obtain ⟨v, hv⟩ := mapM_option_arg_some hins e he
        cases hfind2 : db.ingredients.find? (fun ing => ing.id == e.1) with
        | none =>
            rw [hfind2] at hv
            simp at hv
        | some ing =>
            exact ⟨{ id := e.1, amount := e.2, name := ing.name,
                     measurement_unit := ing.measurement_unit },
              by simp [representLine, hfind2]⟩
      obtain ⟨ingsOut, hingsOut⟩ := mapM_option_of_forall_some hlinesome
      refine ⟨{ id := db.nextRecipeId, tags := tagsOut, author_id := p.author_id,
                is_favorited := get_is_favorited db.favorites cu db.nextRecipeId,
                is_in_shopping_cart :=
                  get_is_in_shopping_cart db.shoppingcarts cu db.nextRecipeId,
                name := p.name, image := imagePublicPath p.image,
                text := p.text, cooking_time := p.cooking_time,
                ingredients := ingsOut },
        ?_, ?_, ?_, ?_, ?_, ?_, ?_⟩
      · rw [to_representation]
        simp only [htagsOut, hfilter, hingsOut, Option.bind_eq_bind,
          Option.some_bind]
        rfl
      · exact (mapM_option_length hingsOut).trans
          (by rw [hfreshmap, List.length_map])
      · have hg : ∀ a ∈ fresh, ∀ b, representLine db.ingredients a = some b →
            (b.id, b.amount) = (a.ingredient_id, a.amount) := by
          intro a _ b hb
          rw [representLine] at hb
          cases hfind2 : db.ingredients.find?
              (fun ing => ing.id == a.ingredient_id) with
          | none =>
              rw [hfind2] at hb
              simp at hb
          | some ing =>
              rw [hfind2] at hb
              simp only [Option.map_some', Option.some.injEq] at hb
              rw [← hb]
        have hmap := mapM_option_map (fun x => (x.id, x.amount))
          (fun a => (a.ingredient_id, a.amount)) hingsOut hg
        rw [hmap, hfreshmap, List.map_map]
        have hidmap : ∀ (l : List (Nat × Int)),
            List.map ((fun a => (a.ingredient_id, a.amount)) ∘ fun e =>
              ({ ingredient_id := e.1, recipe_id := db.nextRecipeId,
                 amount := e.2 } : RecipeLine)) l = l := by
          intro l
          induction l with
          | nil => rfl
          | cons e t ih =>
              rw [List.map_cons, ih]
              rfl
        exact hidmap p.ingredients
      · intro x hx
        obtain ⟨a, ha, hra⟩ := mapM_option_mem hingsOut x hx
        rw [representLine] at hra
        cases hfind2 : db.ingredients.find?
            (fun ing => ing.id == a.ingredient_id) with
        | none =>
            rw [hfind2] at hra
            simp at hra
        | some ing =>
            rw [hfind2] at hra
            simp only [Option.map_some', Option.some.injEq] at hra
            subst hra
            refine ⟨ing, List.mem_of_find?_eq_some hfind2, ?_, rfl, rfl⟩
            have hp := List.find?_some hfind2
            simpa using hp
      · exact mapM_option_length htagsOut
      · have hg2 : ∀ tid ∈ p.tags, ∀ t,
            db.tags.find? (fun x => x.id == tid) = some t → t.id = tid := by
          intro tid _ t ht
          have hp := List.find?_some ht
          simpa using hp
        have hmap2 := mapM_option_map Tag.id (fun tid => tid) htagsOut hg2
        rw [hmap2]
        simp
      · intro t ht
        obtain ⟨tid, _, hfind3⟩ := mapM_option_mem htagsOut t ht
        exact List.mem_of_find?_eq_some hfind3

/-- A state holding two reference ingredients and one tag, with no recipe
yet, used to exercise the create/read round trip. -/
def dbC4 : DB :=
  { users := [],
    ingredients := [{ id := 10, name := "salt", measurement_unit := "g" },
                    { id := 20, name := "rice", measurement_unit := "g" }],
    tags := [{ id := 5, name := "fast", color := "red", slug := "fast" }],
    recipes := [], recipeLines := [], following := [], favorites := [],
    shoppingcarts := [], nextRecipeId := 1 }

/-- A creation payload with two ingredient entries and one tag. -/
def pC4 : RecipePayload :=
  { name := "soup", image := "media/recipes/images/u.PNG", text := "t",
    cooking_time := 5, author_id := 7, tags := [5],
    ingredients := [(10, 3), (20, 2)] }

/-- The recipe row created from `pC4` in `dbC4`. -/
def recC4 : Recipe :=
  { id := 1, name := "soup", image := "media/recipes/images/u.PNG",
    text := "t", cooking_time := 5, author_id := 7, tag_ids := [5] }

/-- The state after creating `pC4` in `dbC4`. -/
def dbC4p : DB :=
  { dbC4 with
      recipes := [recC4],
      recipeLines := [{ ingredient_id := 10, recipe_id := 1, amount := 3 },
                      { ingredient_id := 20, recipe_id := 1, amount := 2 }],
      nextRecipeId := 2 }

/-- Witness for C4: the concrete created recipe reads back successfully. -/
theorem claimC4_round_trip_witness :
    (to_representation dbC4p (some 7) recC4).isSome = true := by
  obtain ⟨rep, hrep, _⟩ := claimC4_round_trip dbC4 pC4 dbC4p recC4 (some 7)
    (by decide) (by decide) (by decide)
  rw [hrep]
  rfl

end Foodgram
